import Mathlib

/-!
Verification of the coffee-shop backend (Flask + SQLAlchemy sources under
`src/backend/src/`).  The development shallowly embeds:

* `src/backend/src/auth/auth.py` — token extraction (`get_token_auth_header`),
  permission checking (`check_permissions`), token verification
  (`verify_decode_jwt`) and the guard decorator (`requires_auth`);
* `src/backend/src/database/models.py` — the `Drink` row with its `short`/`long`
  projections and the seeded initial database;
* `src/backend/src/api.py` — the `/drinks` handlers (list, detail, create,
  patch, delete).

The recipe column stores the output of Python's `json.dumps`, and the
projections read it back with `json.loads`; both library functions are embedded
as executable Lean functions over an inductive `Json` type (numbers are
modelled as integers, which covers every value the repository manipulates), and
the deserialise-after-serialise identity is proved, not assumed.  Python-side
exceptions are modelled explicitly: `Option`/outcome types distinguish a raised
`AuthError` from an uncaught exception and from normal return.
-/

/-- A JSON value as the repository manipulates them.  Python's `json` module
accepts arbitrary numbers; the repository only ever stores integer `parts`
counts, so numerals are embedded as `Int`. -/
inductive Json where
  | null : Json
  | bool : Bool → Json
  | num : Int → Json
  | str : String → Json
  | arr : List Json → Json
  | obj : List (String × Json) → Json

mutual
/-- Structural equality test on JSON values (Python's `==`). -/
def Json.beq : Json → Json → Bool
  | Json.null, Json.null => true
  | Json.bool a, Json.bool b => a == b
  | Json.num a, Json.num b => a == b
  | Json.str a, Json.str b => a == b
  | Json.arr a, Json.arr b => Json.beqItems a b
  | Json.obj a, Json.obj b => Json.beqFields a b
  | _, _ => false
/-- Elementwise equality test on JSON arrays. -/
def Json.beqItems : List Json → List Json → Bool
  | [], [] => true
  | a :: as, b :: bs => Json.beq a b && Json.beqItems as bs
  | _, _ => false
/-- Memberwise equality test on JSON objects. -/
def Json.beqFields : List (String × Json) → List (String × Json) → Bool
  | [], [] => true
  | a :: as, b :: bs => a.1 == b.1 && Json.beq a.2 b.2 && Json.beqFields as bs
  | _, _ => false
end

mutual
theorem Json.beq_iff : ∀ a b : Json, Json.beq a b = true ↔ a = b
  | Json.null, b => by cases b <;> simp [Json.beq]
  | Json.bool x, b => by cases b <;> simp [Json.beq]
  | Json.num x, b => by cases b <;> simp [Json.beq]
  | Json.str x, b => by cases b <;> simp [Json.beq]
  | Json.arr xs, Json.arr ys => by simp [Json.beq, Json.beqItems_iff xs ys]
  | Json.arr xs, Json.null => by simp [Json.beq]
  | Json.arr xs, Json.bool y => by simp [Json.beq]
  | Json.arr xs, Json.num y => by simp [Json.beq]
  | Json.arr xs, Json.str y => by simp [Json.beq]
  | Json.arr xs, Json.obj ys => by simp [Json.beq]
  | Json.obj xs, Json.obj ys => by simp [Json.beq, Json.beqFields_iff xs ys]
  | Json.obj xs, Json.null => by simp [Json.beq]
  | Json.obj xs, Json.bool y => by simp [Json.beq]
  | Json.obj xs, Json.num y => by simp [Json.beq]
  | Json.obj xs, Json.str y => by simp [Json.beq]
  | Json.obj xs, Json.arr ys => by simp [Json.beq]
theorem Json.beqItems_iff : ∀ as bs : List Json, Json.beqItems as bs = true ↔ as = bs
  | [], bs => by cases bs <;> simp [Json.beqItems]
  | a :: as, [] => by simp [Json.beqItems]
  | a :: as, b :: bs => by
    simp [Json.beqItems, Json.beq_iff a b, Json.beqItems_iff as bs]
theorem Json.beqFields_iff :
    ∀ as bs : List (String × Json), Json.beqFields as bs = true ↔ as = bs
  | [], bs => by cases bs <;> simp [Json.beqFields]
  | a :: as, [] => by simp [Json.beqFields]
  | a :: as, b :: bs => by
    rw [Json.beqFields]
    simp [Json.beq_iff a.2 b.2, Json.beqFields_iff as bs, Prod.ext_iff, and_assoc]
end

instance : DecidableEq Json := fun a b => decidable_of_iff _ (Json.beq_iff a b)

/-- Decimal digit `d` (`0 ≤ d ≤ 9`) as a character. -/
def digitChar (d : Nat) : Char := Char.ofNat (48 + d)

/-- Numeric value of a decimal digit character. -/
def charVal (c : Char) : Nat := c.toNat - 48

/-- Digit characters of `n`, most significant first, pushed onto `acc`;
structural on the `fuel` argument so that it evaluates in the kernel. -/
def natCharsGo : Nat → Nat → List Char → List Char
  | 0, _, acc => acc
  | fuel + 1, n, acc =>
    if n = 0 then acc else natCharsGo fuel (n / 10) (digitChar (n % 10) :: acc)

/-- Decimal rendering of a natural number, as `json.dumps` prints it. -/
def natChars (n : Nat) : List Char := if n = 0 then ['0'] else natCharsGo n n []

/-- Decimal rendering of an integer (minus sign, then digits). -/
def intChars : Int → List Char
  | Int.ofNat n => natChars n
  | Int.negSucc n => '-' :: natChars (n + 1)

/-- `json.dumps` escapes `"` and `\` inside string literals (other characters
that the repository stores are emitted verbatim). -/
def escChar (c : Char) : List Char :=
  if c = '"' ∨ c = '\\' then ['\\', c] else [c]

/-- Body of a JSON string literal: every character escaped as needed. -/
def escBody (s : String) : List Char := (s.data.map escChar).flatten

/-- A JSON string literal: quote, escaped body, quote. -/
def strChars (s : String) : List Char := '"' :: escBody s ++ ['"']

mutual
/-- Characters produced by Python's `json.dumps` (default separators `", "`
and `": "`) on a value. -/
def Json.enc : Json → List Char
  | Json.null => ['n', 'u', 'l', 'l']
  | Json.bool true => ['t', 'r', 'u', 'e']
  | Json.bool false => ['f', 'a', 'l', 's', 'e']
  | Json.num i => intChars i
  | Json.str s => strChars s
  | Json.arr es => '[' :: Json.encItems es ++ [']']
  | Json.obj ms => '\x7b' :: Json.encFields ms ++ ['\x7d']
/-- Array elements joined by `", "`. -/
def Json.encItems : List Json → List Char
  | [] => []
  | [e] => Json.enc e
  | e :: es => Json.enc e ++ ',' :: ' ' :: Json.encItems es
/-- Object members `key: value` joined by `", "`. -/
def Json.encFields : List (String × Json) → List Char
  | [] => []
  | [kv] => strChars kv.1 ++ ':' :: ' ' :: Json.enc kv.2
  | kv :: ms => strChars kv.1 ++ ':' :: ' ' :: Json.enc kv.2 ++ ',' :: ' ' :: Json.encFields ms
end

/-- Embedding of `json.dumps`. -/
def json_dumps (v : Json) : String := String.mk (Json.enc v)

/-- Whitespace as `json.loads` skips it. -/
def jsonWs (c : Char) : Bool := c = ' ' ∨ c = '\n' ∨ c = '\t' ∨ c = '\r'

/-- Drop leading whitespace. -/
def wsDrop : List Char → List Char
  | c :: cs => if jsonWs c then wsDrop cs else c :: cs
  | [] => []

/-- Longest digit prefix and the remainder. -/
def grabDigits : List Char → List Char × List Char
  | c :: cs =>
    if c.isDigit then
      let p := grabDigits cs
      (c :: p.1, p.2)
    else ([], c :: cs)
  | [] => ([], [])

/-- Numeric value of a digit string (most significant first). -/
def digitsVal (ds : List Char) : Nat := ds.foldl (fun a c => a * 10 + charVal c) 0

/-- Read a string-literal body up to the closing quote, undoing escapes. -/
def scanString : List Char → Option (List Char × List Char)
  | '"' :: rest => some ([], rest)
  | '\\' :: c :: rest =>
    if c = '"' ∨ c = '\\' then
      (scanString rest).map (fun p => (c :: p.1, p.2))
    else none
  | c :: rest => (scanString rest).map (fun p => (c :: p.1, p.2))
  | [] => none

mutual
/-- One JSON value (fuel-indexed recursive-descent, as `json.loads` accepts). -/
def jparse : Nat → List Char → Option (Json × List Char)
  | 0, _ => none
  | fuel + 1, cs =>
    match wsDrop cs with
    | 'n' :: 'u' :: 'l' :: 'l' :: rest => some (Json.null, rest)
    | 't' :: 'r' :: 'u' :: 'e' :: rest => some (Json.bool true, rest)
    | 'f' :: 'a' :: 'l' :: 's' :: 'e' :: rest => some (Json.bool false, rest)
    | '"' :: rest =>
      (scanString rest).map (fun p => (Json.str (String.mk p.1), p.2))
    | '[' :: rest =>
      (match wsDrop rest with
       | ']' :: rest1 => some (Json.arr [], rest1)
       | other => (jparseItems fuel other).map (fun p => (Json.arr p.1, p.2)))
    | '\x7b' :: rest =>
      (match wsDrop rest with
       | '\x7d' :: rest1 => some (Json.obj [], rest1)
       | other => (jparseFields fuel other).map (fun p => (Json.obj p.1, p.2)))
    | '-' :: rest =>
      (match grabDigits rest with
       | ([], _) => none
       | (ds, rest1) => some (Json.num (-(digitsVal ds : Int)), rest1))
    | c :: rest =>
      if c.isDigit then
        (match grabDigits (c :: rest) with
         | ([], _) => none
         | (ds, rest1) => some (Json.num (digitsVal ds : Int), rest1))
      else none
    | [] => none
/-- One-or-more comma-separated array elements then `]`. -/
def jparseItems : Nat → List Char → Option (List Json × List Char)
  | 0, _ => none
  | fuel + 1, cs =>
    match jparse fuel cs with
    | none => none
    | some (v, rest) =>
      match wsDrop rest with
      | ',' :: rest1 =>
        (jparseItems fuel (wsDrop rest1)).map (fun p => (v :: p.1, p.2))
      | ']' :: rest1 => some ([v], rest1)
      | _ => none
/-- One-or-more `"key": value` members then `}`. -/
def jparseFields : Nat → List Char → Option (List (String × Json) × List Char)
  | 0, _ => none
  | fuel + 1, cs =>
    match wsDrop cs with
    | '"' :: cs1 =>
      (match scanString cs1 with
       | none => none
       | some (k, cs2) =>
         match wsDrop cs2 with
         | ':' :: cs3 =>
           (match jparse fuel (wsDrop cs3) with
            | none => none
            | some (v, cs4) =>
              match wsDrop cs4 with
              | ',' :: cs5 =>
                (jparseFields fuel (wsDrop cs5)).map
                  (fun p => ((String.mk k, v) :: p.1, p.2))
              | '\x7d' :: cs5 => some ([(String.mk k, v)], cs5)
              | _ => none)
         | _ => none)
    | _ => none
end

/-- Embedding of `json.loads`: parse the whole input, allowing trailing
whitespace only (as Python does). -/
def json_loads (s : String) : Option Json :=
  match jparse (s.data.length + 1) s.data with
  | some (v, rest) => if wsDrop rest = [] then some v else none
  | none => none

/-- `true` when the input cannot extend a decimal numeral to its left. -/
def noDigitHead : List Char → Bool
  | [] => true
  | c :: _ => !c.isDigit

theorem digitChar_isDigit (d : Nat) (h : d < 10) : (digitChar d).isDigit = true := by
  interval_cases d <;> decide

theorem charVal_digitChar (d : Nat) (h : d < 10) : charVal (digitChar d) = d := by
  interval_cases d <;> decide

theorem natCharsGo_shift (fuel : Nat) :
    ∀ n acc, natCharsGo fuel n acc = natCharsGo fuel n [] ++ acc := by
  induction fuel with
  | zero => intro n acc; simp [natCharsGo]
  | succ f ih =>
    intro n acc
    by_cases h : n = 0
    · simp [natCharsGo, h]
    · rw [natCharsGo, natCharsGo, if_neg h, if_neg h, ih (n / 10), ih (n / 10) [_]]
      simp

theorem natCharsGo_isDigit (fuel : Nat) :
    ∀ n, ∀ c ∈ natCharsGo fuel n [], c.isDigit = true := by
  induction fuel with
  | zero => intro n c hc; simp [natCharsGo] at hc
  | succ f ih =>
    intro n c hc
    by_cases h : n = 0
    · simp [natCharsGo, h] at hc
    · rw [natCharsGo, if_neg h, natCharsGo_shift] at hc
      rcases List.mem_append.mp hc with h1 | h1
      · exact ih (n / 10) c h1
      · rw [List.mem_singleton] at h1
        exact h1 ▸ digitChar_isDigit _ (Nat.mod_lt _ (by omega))

theorem natCharsGo_val (fuel : Nat) :
    ∀ n a, n ≤ fuel →
      List.foldl (fun a c => a * 10 + charVal c) a (natCharsGo fuel n []) =
        a * 10 ^ (natCharsGo fuel n []).length + n := by
  induction fuel with
  | zero => intro n a h; interval_cases n; simp [natCharsGo]
  | succ f ih =>
    intro n a h
    by_cases h0 : n = 0
    · simp [natCharsGo, h0]
    · rw [natCharsGo, if_neg h0, natCharsGo_shift]
      rw [List.foldl_append, ih (n / 10) a (by omega)]
      have hd : n % 10 < 10 := Nat.mod_lt _ (by omega)
      have hdm : n / 10 * 10 + n % 10 = n := by omega
      simp only [List.foldl_cons, List.foldl_nil, List.length_append,
        List.length_singleton, charVal_digitChar _ hd]
      calc (a * 10 ^ (natCharsGo f (n / 10) []).length + n / 10) * 10 + n % 10
          = a * 10 ^ ((natCharsGo f (n / 10) []).length + 1) + (n / 10 * 10 + n % 10) := by
            ring
        _ = a * 10 ^ ((natCharsGo f (n / 10) []).length + 1) + n := by rw [hdm]

theorem natChars_isDigit (n : Nat) : ∀ c ∈ natChars n, c.isDigit = true := by
  intro c hc
  by_cases h : n = 0
  · simp [natChars, h] at hc
    simp [hc]
  · rw [natChars, if_neg h] at hc
    exact natCharsGo_isDigit n n c hc

theorem natChars_ne_nil (n : Nat) : natChars n ≠ [] := by
  by_cases h : n = 0
  · simp [natChars, h]
  · obtain ⟨f, rfl⟩ := Nat.exists_eq_succ_of_ne_zero h
    rw [natChars, if_neg h, natCharsGo, if_neg h, natCharsGo_shift]
    simp

theorem digitsVal_natChars (n : Nat) : digitsVal (natChars n) = n := by
  by_cases h : n = 0
  · simp [natChars, h, digitsVal, charVal]
  · rw [natChars, if_neg h, digitsVal, natCharsGo_val n n 0 (le_refl n)]
    simp

theorem grabDigits_exact : ∀ ds rest, (∀ c ∈ ds, c.isDigit = true) →
    noDigitHead rest = true → grabDigits (ds ++ rest) = (ds, rest) := by
  intro ds
  induction ds with
  | nil =>
    intro rest _ hrest
    cases rest with
    | nil => rfl
    | cons c t =>
      simp only [noDigitHead, Bool.not_eq_true'] at hrest
      simp [grabDigits, hrest]
  | cons c t ih =>
    intro rest hds hrest
    have hc : c.isDigit = true := hds c (by simp)
    simp only [List.cons_append, grabDigits, hc, if_pos]
    have ht := ih rest (fun x hx => hds x (by simp [hx])) hrest
    simp only [List.append_eq] at ht ⊢
    rw [ht]

theorem scanString_esc : ∀ l rest,
    scanString ((l.map escChar).flatten ++ '"' :: rest) = some (l, rest) := by
  intro l
  induction l with
  | nil => intro rest; simp [scanString]
  | cons c t ih =>
    intro rest
    by_cases hc : c = '"' ∨ c = '\\'
    · simp only [List.map_cons, List.flatten_cons, escChar, if_pos hc, List.cons_append,
        List.append_assoc]
      rw [scanString, if_pos hc]
      simp [ih rest]
    · push_neg at hc
      simp only [List.map_cons, List.flatten_cons, escChar, if_neg (not_or.mpr hc),
        List.cons_append, List.singleton_append]
      rw [scanString.eq_def]
      split
      · rename_i heq; rw [List.cons.injEq] at heq; exact absurd heq.1 hc.1
      · rename_i heq; rw [List.cons.injEq] at heq; exact absurd heq.1 hc.2
      · rename_i c2 rest2 hx1 hx2 heq
        rw [List.cons.injEq] at heq
        obtain ⟨h1, h2⟩ := heq
        subst h1
        rw [← h2]
        simp [ih rest]
      · rename_i heq; simp at heq

theorem scanString_body (s : String) (rest : List Char) :
    scanString (escBody s ++ '"' :: rest) = some (s.data, rest) :=
  scanString_esc s.data rest

theorem digit_not_ws {c : Char} (h : c.isDigit = true) : jsonWs c = false := by
  by_contra hw
  rw [Bool.not_eq_false] at hw
  simp only [jsonWs, decide_eq_true_eq] at hw
  rcases hw with rfl | rfl | rfl | rfl <;> simp at h

theorem digit_not_close {c : Char} (h : c.isDigit = true) : c ≠ ']' ∧ c ≠ '\x7d' := by
  constructor <;> (rintro rfl; simp at h)

theorem digit_not_open {c : Char} (h : c.isDigit = true) :
    c ≠ 'n' ∧ c ≠ 't' ∧ c ≠ 'f' ∧ c ≠ '"' ∧ c ≠ '[' ∧ c ≠ '\x7b' ∧ c ≠ '-' := by
  refine ⟨?_, ?_, ?_, ?_, ?_, ?_, ?_⟩ <;> (rintro rfl; simp at h)

theorem natChars_head (n : Nat) :
    ∃ c t, natChars n = c :: t ∧ c.isDigit = true := by
  rcases hn : natChars n with _ | ⟨c, t⟩
  · exact absurd hn (natChars_ne_nil n)
  · exact ⟨c, t, rfl, natChars_isDigit n c (hn ▸ List.mem_cons_self c t)⟩

/-- Every encoded value begins with a character that is not whitespace and
closes neither an array nor an object. -/
theorem enc_head (v : Json) :
    ∃ c t, Json.enc v = c :: t ∧ jsonWs c = false ∧ c ≠ ']' ∧ c ≠ '\x7d' := by
  cases v with
  | num i =>
    cases i with
    | ofNat n =>
      obtain ⟨c, t, hct, hd⟩ := natChars_head n
      exact ⟨c, t, hct, digit_not_ws hd, (digit_not_close hd).1, (digit_not_close hd).2⟩
    | negSucc n =>
      refine ⟨'-', _, rfl, ?_, ?_, ?_⟩ <;> decide
  | bool b =>
    cases b <;> (refine ⟨_, _, rfl, ?_, ?_, ?_⟩ <;> decide)
  | null => refine ⟨_, _, rfl, ?_, ?_, ?_⟩ <;> decide
  | str s => refine ⟨_, _, rfl, ?_, ?_, ?_⟩ <;> decide
  | arr es => refine ⟨_, _, rfl, ?_, ?_, ?_⟩ <;> decide
  | obj ms => refine ⟨_, _, rfl, ?_, ?_, ?_⟩ <;> decide

theorem wsDrop_cons {c : Char} (cs : List Char) (h : jsonWs c = false) :
    wsDrop (c :: cs) = c :: cs := by
  simp [wsDrop, h]

theorem wsDrop_enc (v : Json) (x : List Char) :
    wsDrop (Json.enc v ++ x) = Json.enc v ++ x := by
  obtain ⟨c, t, hct, hws, -, -⟩ := enc_head v
  rw [hct, List.cons_append, wsDrop_cons _ hws]

theorem jparse_num (f : Nat) (i : Int) (rest : List Char) (hrest : noDigitHead rest = true) :
    jparse (f + 1) (intChars i ++ rest) = some (Json.num i, rest) := by
  cases i with
  | ofNat n =>
    obtain ⟨c, t, hct, hd⟩ := natChars_head n
    have hgrab := grabDigits_exact (natChars n) rest (natChars_isDigit n) hrest
    obtain ⟨h1, h2, h3, h4, h5, h6, h7⟩ := digit_not_open hd
    rw [intChars, hct, List.cons_append, jparse, wsDrop_cons _ (digit_not_ws hd)]
    split
    · rename_i heq; rw [List.cons.injEq] at heq; exact absurd heq.1 h1
    · rename_i heq; rw [List.cons.injEq] at heq; exact absurd heq.1 h2
    · rename_i heq; rw [List.cons.injEq] at heq; exact absurd heq.1 h3
    · rename_i heq; rw [List.cons.injEq] at heq; exact absurd heq.1 h4
    · rename_i heq; rw [List.cons.injEq] at heq; exact absurd heq.1 h5
    · rename_i heq; rw [List.cons.injEq] at heq; exact absurd heq.1 h6
    · rename_i heq; rw [List.cons.injEq] at heq; exact absurd heq.1 h7
    · rename_i c2 rest2 hx heq
      rw [List.cons.injEq] at heq
      obtain ⟨hc2, hr2⟩ := heq
      subst hc2
      rw [← hr2, if_pos hd, ← List.cons_append, ← hct, hgrab]
      have : natChars n ≠ [] := natChars_ne_nil n
      split
      · rename_i heq2; rw [Prod.mk.injEq] at heq2; exact absurd heq2.1 this
      · rename_i ds rest1 heq2
        rw [Prod.mk.injEq] at heq2
        rw [← heq2.1, ← heq2.2, digitsVal_natChars]
        simp
    · rename_i heq; simp at heq
  | negSucc n =>
    have hgrab := grabDigits_exact (natChars (n + 1)) rest (natChars_isDigit (n + 1)) hrest
    rw [intChars, List.cons_append, jparse, wsDrop_cons _ (by decide)]
    have hne : natChars (n + 1) ≠ [] := natChars_ne_nil (n + 1)
    split
    · rename_i heq; simp at heq
    · rename_i heq; simp at heq
    · rename_i heq; simp at heq
    · rename_i heq; simp at heq
    · rename_i heq; simp at heq
    · rename_i heq; simp at heq
    · rename_i r7 heq
      rw [List.cons.injEq] at heq
      rw [← heq.2, hgrab]
      split
      · rename_i heq2; rw [Prod.mk.injEq] at heq2; exact absurd heq2.1 hne
      · rename_i ds rest1 heq2
        rw [Prod.mk.injEq] at heq2
        rw [← heq2.1, ← heq2.2, digitsVal_natChars]
        simp [Int.negSucc_eq]
    · rename_i hx heq
      rw [List.cons.injEq] at heq
      obtain ⟨hc2, hr2⟩ := heq
      exact absurd rfl (hc2 ▸ hx)
    · rename_i heq; simp at heq

theorem jparse_quote (g : Nat) (X : List Char) :
    jparse (g + 1) ('"' :: X)
      = Option.map (fun p => (Json.str (String.mk p.1), p.2)) (scanString X) := rfl

theorem jparse_bracket (g : Nat) (X : List Char) :
    jparse (g + 1) ('[' :: X)
      = match wsDrop X with
        | ']' :: r => some (Json.arr [], r)
        | other => Option.map (fun p => (Json.arr p.1, p.2)) (jparseItems g other) := rfl

theorem jparse_brace (g : Nat) (X : List Char) :
    jparse (g + 1) ('\x7b' :: X)
      = match wsDrop X with
        | '\x7d' :: r => some (Json.obj [], r)
        | other => Option.map (fun p => (Json.obj p.1, p.2)) (jparseFields g other) := rfl

theorem jparseItems_step (g : Nat) (cs : List Char) :
    jparseItems (g + 1) cs
      = match jparse g cs with
        | none => none
        | some (v, rest) =>
          match wsDrop rest with
          | ',' :: rest1 => (jparseItems g (wsDrop rest1)).map (fun p => (v :: p.1, p.2))
          | ']' :: rest1 => some ([v], rest1)
          | _ => none := rfl

theorem jparseFields_quote (g : Nat) (X : List Char) :
    jparseFields (g + 1) ('"' :: X)
      = (match scanString X with
         | none => none
         | some (k, cs2) =>
           match wsDrop cs2 with
           | ':' :: cs3 =>
             (match jparse g (wsDrop cs3) with
              | none => none
              | some (v, cs4) =>
                match wsDrop cs4 with
                | ',' :: cs5 =>
                  (jparseFields g (wsDrop cs5)).map
                    (fun p => ((String.mk k, v) :: p.1, p.2))
                | '\x7d' :: cs5 => some ([(String.mk k, v)], cs5)
                | _ => none)
           | _ => none) := rfl

theorem intChars_ne_nil (i : Int) : intChars i ≠ [] := by
  cases i with
  | ofNat n => exact natChars_ne_nil n
  | negSucc n => simp [intChars]

theorem encItems_head (e : Json) (es : List Json) :
    ∃ c t, Json.encItems (e :: es) = c :: t ∧ jsonWs c = false ∧ c ≠ ']' ∧ c ≠ '\x7d' := by
  obtain ⟨c, t, hct, hws, hc1, hc2⟩ := enc_head e
  cases es with
  | nil => exact ⟨c, t, by simp only [Json.encItems, hct], hws, hc1, hc2⟩
  | cons x xs =>
    refine ⟨c, t ++ ',' :: ' ' :: Json.encItems (x :: xs), ?_, hws, hc1, hc2⟩
    simp only [Json.encItems, hct, List.cons_append]

theorem encFields_cons (kv : String × Json) (ms : List (String × Json)) :
    ∃ t, Json.encFields (kv :: ms) = '"' :: t := by
  cases ms with
  | nil =>
    exact ⟨escBody kv.1 ++ '"' :: ':' :: ' ' :: Json.enc kv.2,
      by simp [Json.encFields, strChars]⟩
  | cons m ms' =>
    exact ⟨escBody kv.1 ++ '"' :: ':' :: ' ' :: (Json.enc kv.2
        ++ ',' :: ' ' :: Json.encFields (m :: ms')),
      by simp [Json.encFields, strChars]⟩

theorem wsDrop_space (cs : List Char) : wsDrop (' ' :: cs) = wsDrop cs := by
  simp [wsDrop, jsonWs]

mutual
theorem rtVal : ∀ (v : Json) (f : Nat) (rest : List Char),
    (Json.enc v).length < f → noDigitHead rest = true →
    jparse f (Json.enc v ++ rest) = some (v, rest)
  | Json.null, 0, rest, hf, _ => by simp [Json.enc] at hf
  | Json.null, g + 1, rest, _, _ => rfl
  | Json.bool true, 0, rest, hf, _ => by simp [Json.enc] at hf
  | Json.bool true, g + 1, rest, _, _ => rfl
  | Json.bool false, 0, rest, hf, _ => by simp [Json.enc] at hf
  | Json.bool false, g + 1, rest, _, _ => rfl
  | Json.num i, 0, rest, hf, _ => by omega
  | Json.num i, g + 1, rest, _, hrest => jparse_num g i rest hrest
  | Json.str s, 0, rest, hf, _ => by omega
  | Json.str s, g + 1, rest, _, _ => by
    have harg : Json.enc (Json.str s) ++ rest = '"' :: (escBody s ++ '"' :: rest) := by
      simp [Json.enc, strChars]
    rw [harg, jparse_quote, scanString_body]
    rfl
  | Json.arr [], 0, rest, hf, _ => by simp [Json.enc] at hf
  | Json.arr [], g + 1, rest, _, _ => rfl
  | Json.arr (e :: es), 0, rest, hf, _ => by omega
  | Json.arr (e :: es), g + 1, rest, hf, _ => by
    have harg : Json.enc (Json.arr (e :: es)) ++ rest
        = '[' :: (Json.encItems (e :: es) ++ ']' :: rest) := by
      simp [Json.enc]
    obtain ⟨c, t, hct, hws, hc1, hc2⟩ := encItems_head e es
    have hlen : (Json.encItems (e :: es)).length + 1 < g := by
      rw [Json.enc] at hf
      simp only [List.length_cons, List.length_append, List.length_singleton] at hf
      omega
    rw [harg, jparse_bracket, hct, List.cons_append, wsDrop_cons _ hws,
      ← List.cons_append, ← hct]
    split
    · rename_i heq
      rw [hct, List.cons_append, List.cons.injEq] at heq
      exact absurd heq.1 hc1
    · rw [rtItems e es g rest hlen]
      rfl
  | Json.obj [], 0, rest, hf, _ => by simp [Json.enc] at hf
  | Json.obj [], g + 1, rest, _, _ => rfl
  | Json.obj (kv :: ms), 0, rest, hf, _ => by omega
  | Json.obj (kv :: ms), g + 1, rest, hf, _ => by
    have harg : Json.enc (Json.obj (kv :: ms)) ++ rest
        = '\x7b' :: (Json.encFields (kv :: ms) ++ '\x7d' :: rest) := by
      simp [Json.enc]
    obtain ⟨t, hct⟩ := encFields_cons kv ms
    have hlen : (Json.encFields (kv :: ms)).length + 1 < g := by
      rw [Json.enc] at hf
      simp only [List.length_cons, List.length_append, List.length_singleton] at hf
      omega
    rw [harg, jparse_brace, hct, List.cons_append, wsDrop_cons _ (by decide),
      ← List.cons_append, ← hct]
    split
    · rename_i heq
      rw [hct, List.cons_append, List.cons.injEq] at heq
      exact absurd heq.1 (by decide)
    · rw [rtFields kv ms g rest hlen]
      rfl
termination_by v _ _ _ _ => sizeOf v
theorem rtItems : ∀ (e : Json) (es : List Json) (f : Nat) (rest : List Char),
    (Json.encItems (e :: es)).length + 1 < f →
    jparseItems f (Json.encItems (e :: es) ++ ']' :: rest) = some (e :: es, rest)
  | e, [], 0, rest, hf => by omega
  | e, [], g + 1, rest, hf => by
    have he : (Json.enc e).length < g := by
      simp only [Json.encItems] at hf
      omega
    rw [show Json.encItems [e] = Json.enc e from by simp only [Json.encItems],
      jparseItems_step, rtVal e g (']' :: rest) he (by simp [noDigitHead])]
    rfl
  | e, x :: xs, 0, rest, hf => by omega
  | e, x :: xs, g + 1, rest, hf => by
    have hlen : (Json.encItems (e :: x :: xs)).length
        = (Json.enc e).length + 2 + (Json.encItems (x :: xs)).length := by
      simp only [Json.encItems, List.length_append, List.length_cons]
      omega
    obtain ⟨c, t, hct, hws, hc1, hc2⟩ := encItems_head x xs
    have hsplit : Json.encItems (e :: x :: xs) ++ ']' :: rest
        = Json.enc e ++ ',' :: ' ' :: (Json.encItems (x :: xs) ++ ']' :: rest) := by
      simp only [Json.encItems, List.cons_append, List.append_assoc]
    rw [hsplit, jparseItems_step,
      rtVal e g _ (by omega) (by simp [noDigitHead])]
    simp only []
    rw [wsDrop_cons _ (show jsonWs ',' = false from by decide)]
    simp only []
    rw [show wsDrop (' ' :: (Json.encItems (x :: xs) ++ ']' :: rest))
        = Json.encItems (x :: xs) ++ ']' :: rest
      from by rw [wsDrop_space, hct, List.cons_append, wsDrop_cons _ hws]]
    rw [rtItems x xs g rest (by omega)]
    rfl
termination_by e es _ _ _ => sizeOf e + sizeOf es
theorem rtFields : ∀ (kv : String × Json) (ms : List (String × Json)) (f : Nat)
    (rest : List Char),
    (Json.encFields (kv :: ms)).length + 1 < f →
    jparseFields f (Json.encFields (kv :: ms) ++ '\x7d' :: rest) = some (kv :: ms, rest)
  | kv, [], 0, rest, hf => by omega
  | (k, v), [], g + 1, rest, hf => by
    have hv : (Json.enc v).length < g := by
      simp only [Json.encFields, strChars, escBody, List.length_append, List.length_cons] at hf
      omega
    have hsplit : Json.encFields ((k, v) :: []) ++ '\x7d' :: rest
        = '"' :: (escBody k ++ '"' :: (':' :: ' ' :: (Json.enc v ++ '\x7d' :: rest))) := by
      simp [Json.encFields, strChars]
    rw [hsplit, jparseFields_quote, scanString_body]
    simp only []
    rw [wsDrop_cons _ (show jsonWs ':' = false from by decide)]
    simp only []
    rw [show wsDrop (' ' :: (Json.enc v ++ '\x7d' :: rest)) = Json.enc v ++ '\x7d' :: rest
      from by rw [wsDrop_space, wsDrop_enc],
      rtVal v g _ hv (by simp [noDigitHead])]
    simp only []
    rfl
  | kv, m :: ms', 0, rest, hf => by omega
  | (k, v), m :: ms', g + 1, rest, hf => by
    have hv : (Json.enc v).length < g := by
      simp only [Json.encFields, strChars, escBody, List.length_append, List.length_cons] at hf
      omega
    have hms : (Json.encFields (m :: ms')).length + 1 < g := by
      simp only [Json.encFields, strChars, escBody, List.length_append, List.length_cons] at hf
      omega
    obtain ⟨t, hct⟩ := encFields_cons m ms'
    have hsplit : Json.encFields ((k, v) :: m :: ms') ++ '\x7d' :: rest
        = '"' :: (escBody k ++ '"' :: (':' :: ' ' :: (Json.enc v
            ++ ',' :: ' ' :: (Json.encFields (m :: ms') ++ '\x7d' :: rest)))) := by
      simp [Json.encFields, strChars]
    rw [hsplit, jparseFields_quote, scanString_body]
    simp only []
    rw [wsDrop_cons _ (show jsonWs ':' = false from by decide)]
    simp only []
    rw [show wsDrop (' ' :: (Json.enc v ++ ',' :: ' ' :: (Json.encFields (m :: ms')
          ++ '\x7d' :: rest)))
        = Json.enc v ++ ',' :: ' ' :: (Json.encFields (m :: ms') ++ '\x7d' :: rest)
      from by rw [wsDrop_space, wsDrop_enc],
      rtVal v g _ hv (by simp [noDigitHead])]
    simp only []
    rw [wsDrop_cons _ (show jsonWs ',' = false from by decide)]
    simp only []
    rw [show wsDrop (' ' :: (Json.encFields (m :: ms') ++ '\x7d' :: rest))
        = Json.encFields (m :: ms') ++ '\x7d' :: rest
      from by rw [wsDrop_space, hct, List.cons_append, wsDrop_cons _ (by decide)],
      rtFields m ms' g rest hms]
    rfl
termination_by kv ms _ _ _ => sizeOf kv + sizeOf ms
end

/-- The deserialise-after-serialise identity for the embedded `json` module. -/
theorem json_loads_dumps (v : Json) : json_loads (json_dumps v) = some v := by
  have h := rtVal v ((Json.enc v).length + 1) [] (by omega) (by decide)
  rw [List.append_nil] at h
  rw [json_loads, json_dumps]
  simp only [h]
  rfl

/-! ### Auth subsystem (`src/backend/src/auth/auth.py`) -/

/-- Whitespace for Python's `str.split()` with no separator argument. -/
def pyWs (c : Char) : Bool :=
  c = ' ' ∨ c = '\t' ∨ c = '\n' ∨ c = '\r' ∨ c = '\x0c' ∨ c = '\x0b'

/-- Accumulating worker for `pysplit`. -/
def pywordsGo : List Char → List Char → List String
  | [], cur => if cur.isEmpty then [] else [String.mk cur.reverse]
  | c :: cs, cur =>
    if pyWs c then
      if cur.isEmpty then pywordsGo cs []
      else String.mk cur.reverse :: pywordsGo cs []
    else pywordsGo cs (c :: cur)

/-- Python's `str.split()`: words separated by runs of whitespace; a string of
only whitespace yields the empty list. -/
def pysplit (s : String) : List String := pywordsGo s.data []

/-- Python's `str.lower()` on the ASCII strings the repository compares
(character-wise `Char.toLower`, which evaluates in the kernel). -/
def pyLower (s : String) : String := String.mk (s.data.map Char.toLower)

/-- Outcome of an auth-layer call: normal return, a raised `AuthError`
(code, description, status code), or a raised non-`AuthError` exception. -/
inductive AuthOutcome (α : Type) where
  | ok : α → AuthOutcome α
  | authError : String → String → Nat → AuthOutcome α
  | exn : AuthOutcome α
deriving DecidableEq

/-- `get_token_auth_header` from auth.py.  The argument is
`request.headers.get('Authorization', None)`; Python's `if not auth` treats
both `None` and the empty string as missing.  `parts[0]` on a whitespace-only
header raises `IndexError`, modelled as `exn`. -/
def get_token_auth_header (auth : Option String) : AuthOutcome String :=
  match auth with
  | none =>
    AuthOutcome.authError "authorization_header_missing"
      "Authorization header is expected." 401
  | some a =>
    if a = "" then
      AuthOutcome.authError "authorization_header_missing"
        "Authorization header is expected." 401
    else
      match pysplit a with
      | [] => AuthOutcome.exn
      | p0 :: ps =>
        if pyLower p0 ≠ "bearer" then
          AuthOutcome.authError "invalid_header"
            "Authorization header must start with \"Bearer\"." 401
        else
          match ps with
          | [] => AuthOutcome.authError "invalid_header" "Token not found." 401
          | [tok] => AuthOutcome.ok tok
          | _ =>
            AuthOutcome.authError "invalid_header"
              "Authorization header must be bearer token." 401

/-- The decoded JWT payload; only the `permissions` claim is inspected by the
repository (`none` models a payload without that key). -/
structure Payload where
  permissions : Option (List String)
deriving DecidableEq

/-- `check_permissions` from auth.py. -/
def check_permissions (permission : String) (payload : Payload) : AuthOutcome Bool :=
  match payload.permissions with
  | none =>
    AuthOutcome.authError "invalid_claims" "Permissions not included in JWT." 400
  | some perms =>
    if permission ∈ perms then AuthOutcome.ok true
    else AuthOutcome.authError "unauthorized" "Permission not found." 401

/-- One entry of the fetched JWKS (the fields auth.py copies into `rsa_key`). -/
structure JwksKey where
  kty : String
  kid : String
  use : String
  n : String
  e : String
deriving DecidableEq

/-- What `jwt.decode` does with the token and the matched key. -/
inductive DecodeOutcome where
  | ok : Payload → DecodeOutcome
  | expiredSignature : DecodeOutcome
  | claimsError : DecodeOutcome
  | exn : DecodeOutcome
deriving DecidableEq

/-- Behaviour of the `jose` library on one token string: `header` is the
unverified header's key id (`none` when `jwt.get_unverified_header` raises,
`some none` when it parses with no `kid`), and `decode` is the outcome of
`jwt.decode` against a given key. -/
structure TokenModel where
  header : Option (Option String)
  decode : JwksKey → DecodeOutcome

/-- Request-scoped environment of the auth layer: the `Authorization` header,
the fetched key set (`none` when the fetch or its JSON parsing raises), and
the `jose` library's behaviour per token string. -/
structure AuthEnv where
  header : Option String
  jwks : Option (List JwksKey)
  jose : String → TokenModel

/-- The `for key in jwks['keys']` loop of auth.py: each match overwrites
`rsa_key`, so the last matching key wins. -/
def lastMatch (keys : List JwksKey) (kid : String) : Option JwksKey :=
  keys.foldl (fun acc k => if k.kid = kid then some k else acc) none

/-- `verify_decode_jwt` from auth.py. -/
def verify_decode_jwt (env : AuthEnv) (token : String) : AuthOutcome Payload :=
  match env.jwks with
  | none => AuthOutcome.exn
  | some keys =>
    match (env.jose token).header with
    | none => AuthOutcome.exn
    | some none =>
      AuthOutcome.authError "invalid_header" "Authorization malformed." 401
    | some (some kid) =>
      match lastMatch keys kid with
      | some key =>
        match (env.jose token).decode key with
        | DecodeOutcome.ok payload => AuthOutcome.ok payload
        | DecodeOutcome.expiredSignature =>
          AuthOutcome.authError "token_expired" "Token expired." 401
        | DecodeOutcome.claimsError =>
          AuthOutcome.authError "invalid_claims"
            "Incorrect claims. Please, check the audience and issuer." 401
        | DecodeOutcome.exn =>
          AuthOutcome.authError "invalid_header"
            "Unable to parse authentication token." 400
      | none =>
        AuthOutcome.authError "invalid_header" "Unable to find the appropriate key." 400

/-- Result of a guarded request as the client sees it: the wrapped handler's
value, the bare `abort(401)` of the guard, or a structured `AuthError`
envelope rendered by the `AuthError` error handler in api.py. -/
inductive GuardResult (β : Type) where
  | ok : β → GuardResult β
  | plain401 : GuardResult β
  | errorResponse : String → String → Nat → GuardResult β
  | exn : GuardResult β

/-- The `requires_auth` decorator from auth.py: extraction and verification run
inside `try ... except: abort(401)`, while `check_permissions` runs outside the
`try`, so its `AuthError` reaches Flask's `AuthError` handler intact. -/
def requires_auth {β : Type} (permission : String) (env : AuthEnv)
    (f : Payload → β) : GuardResult β :=
  match get_token_auth_header env.header with
  | AuthOutcome.ok token =>
    match verify_decode_jwt env token with
    | AuthOutcome.ok payload =>
      match check_permissions permission payload with
      | AuthOutcome.ok _ => GuardResult.ok (f payload)
      | AuthOutcome.authError code desc status =>
        GuardResult.errorResponse code desc status
      | AuthOutcome.exn => GuardResult.exn
    | _ => GuardResult.plain401
  | _ => GuardResult.plain401

/-! ### Catalog store (`models.py`) and request handlers (`api.py`) -/

/-- One row of the `drinks` table.  `title` holds whatever Python value the
handler assigned (a `String(80)` column with a UNIQUE constraint); `recipe` is
the serialized blob (a `String(180)` column). -/
structure DrinkRow where
  id : Nat
  title : Json
  recipe : String
deriving DecidableEq

/-- The persistent state: the table rows plus the autoincrement counter. -/
structure Catalog where
  rows : List DrinkRow
  nextId : Nat
deriving DecidableEq

/-- Python dict lookup on a decoded JSON object (later duplicate keys win,
as in `json.loads`). -/
def objGet (kvs : List (String × Json)) (key : String) : Option Json :=
  kvs.foldl (fun acc kv => if kv.1 = key then some kv.2 else acc) none

/-- Short-form ingredient: `color` and `parts` only, `name` dropped. -/
structure ShortIngredient where
  color : Json
  parts : Json
deriving DecidableEq

/-- The short projection of a drink. -/
structure ShortDrink where
  id : Nat
  title : Json
  recipe : List ShortIngredient
deriving DecidableEq

/-- The long projection of a drink. -/
structure LongDrink where
  id : Nat
  title : Json
  recipe : Json
deriving DecidableEq

/-- The body of the list comprehension in `Drink.short`: Python's
`{'color': r['color'], 'parts': r['parts']}` (raises unless `r` is a dict
carrying both keys). -/
def shortIngredient : Json → Option ShortIngredient
  | Json.obj kvs =>
    match objGet kvs "color", objGet kvs "parts" with
    | some c, some p => some (ShortIngredient.mk c p)
    | _, _ => none
  | _ => none

/-- `Drink.short` from models.py: deserialize the blob and project each record
with `shortIngredient`; `none` models the raised exception when the blob does
not hold a list of records carrying those keys. -/
def Drink.short (d : DrinkRow) : Option ShortDrink :=
  match json_loads d.recipe with
  | some (Json.arr items) =>
    (items.mapM shortIngredient).map (fun rs => ShortDrink.mk d.id d.title rs)
  | _ => none

/-- `Drink.long` from models.py: deserialize the blob verbatim. -/
def Drink.long (d : DrinkRow) : Option LongDrink :=
  (json_loads d.recipe).map (fun j => LongDrink.mk d.id d.title j)

/-- A handler response: `ok` carries the 200 payload, `err` an
`abort(status, message)`, and `exn` an uncaught exception (Flask 500). -/
inductive Rsp (α : Type) where
  | ok : α → Rsp α
  | err : Nat → String → Rsp α
  | exn : Rsp α
deriving DecidableEq

/-- GET /drinks (api.py `drinks`): 404 on an empty table, else the short
projections of every row. -/
def drinks (st : Catalog) : Rsp (List ShortDrink) :=
  if st.rows.length = 0 then Rsp.err 404 "There are no drinks"
  else
    match st.rows.mapM Drink.short with
    | some views => Rsp.ok views
    | none => Rsp.exn

/-- GET /drinks-detail (api.py `drinks_detail`, after the guard): 404 on an
empty table, else the long projections of every row. -/
def drinks_detail (st : Catalog) : Rsp (List LongDrink) :=
  if st.rows.length = 0 then Rsp.err 404 "There are no drinks"
  else
    match st.rows.mapM Drink.long with
    | some views => Rsp.ok views
    | none => Rsp.exn

/-- The duplicate-title `abort(400, description="Cannot add '" + new_title
+ ...)` of api.py: string concatenation with a non-string title raises
`TypeError` instead (an uncaught exception). -/
def dupTitleAbort (st : Catalog) (t : Json) : Rsp (List LongDrink) × Catalog :=
  match t with
  | Json.str ts =>
    (Rsp.err 400
      ("Cannot add '" ++ ts ++ "'. That drink already exists in the datbase."), st)
  | _ => (Rsp.exn, st)

/-- POST /drinks (api.py `drinks_create`, after the guard).  Validation, the
duplicate-title query (`one_or_none` raises on more than one match, modelled
as `exn`), then insert + commit and the long projection of the new row. -/
def drinks_create (st : Catalog) (newTitle newRecipe : Option Json) :
    Rsp (List LongDrink) × Catalog :=
  match newTitle, newRecipe with
  | none, none =>
    (Rsp.err 400 "Missing input field(s). (title and recipe are required.)", st)
  | none, some _ => (Rsp.err 400 "Missing input field(s). (title is required.)", st)
  | some _, none => (Rsp.err 400 "Missing input field(s). (recipe is required.)", st)
  | some t, some r =>
    if t = Json.str "" then (Rsp.err 400 "The title must not be blank.", st)
    else if r = Json.str "" then (Rsp.err 400 "The recipe must not be blank.", st)
    else
      match st.rows.filter (fun row => decide (row.title = t)) with
      | [] =>
        let row : DrinkRow := DrinkRow.mk st.nextId t (json_dumps r)
        let st' : Catalog := Catalog.mk (st.rows ++ [row]) (st.nextId + 1)
        match Drink.long row with
        | some view => (Rsp.ok [view], st')
        | none =>
          (Rsp.err 422 "Unexpected error inserting the drink into the database.", st')
      | [_] => dupTitleAbort st t
      | _ => (Rsp.exn, st)

/-- PATCH /drinks/id (api.py `drinks_patch`, after the guard).  Validation,
the 404 lookup, then field assignment and `update()` (the commit fails against
the UNIQUE title constraint when a different row already carries the new
title, and api.py rolls back and answers 422). -/
def drinks_patch (st : Catalog) (id : Nat) (newTitle newRecipe : Option Json) :
    Rsp (List LongDrink) × Catalog :=
  if newTitle = none ∧ newRecipe = none then
    (Rsp.err 400 "Missing input field(s). (title or recipe are required.)", st)
  else if newTitle = some (Json.str "") ∨ newRecipe = some (Json.str "") then
    (Rsp.err 400 "Bad input field(s). (title or recipe must not be blank.)", st)
  else
    match st.rows.filter (fun row => decide (row.id = id)) with
    | [] => (Rsp.err 404 "id not found in the database.", st)
    | [row] =>
      let row' : DrinkRow :=
        DrinkRow.mk row.id (newTitle.getD row.title)
          ((newRecipe.map json_dumps).getD row.recipe)
      if st.rows.filter (fun o => decide (o.id ≠ id ∧ o.title = row'.title)) ≠ [] then
        (Rsp.err 422 "Unexpected error updating the database.", st)
      else
        let st' : Catalog :=
          Catalog.mk (st.rows.map (fun r0 => if r0.id = id then row' else r0)) st.nextId
        match Drink.long row' with
        | some view => (Rsp.ok [view], st')
        | none => (Rsp.err 422 "Unexpected error updating the database.", st')
    | _ => (Rsp.exn, st)

/-- DELETE /drinks/id (api.py `drinks_delete`, after the guard). -/
def drinks_delete (st : Catalog) (id : Nat) : Rsp Nat × Catalog :=
  match st.rows.filter (fun row => decide (row.id = id)) with
  | [] => (Rsp.err 404 ("id '" ++ toString id ++ "' not found in the database."), st)
  | [_] =>
    (Rsp.ok id, Catalog.mk (st.rows.filter (fun r0 => decide (r0.id ≠ id))) st.nextId)
  | _ => (Rsp.exn, st)

/-- The seeded blob of the first dummy drink in `db_drop_and_create_all`. -/
def seedRecipe1 : String :=
  "[\x7b\"name\": \"coffee\", \"color\": \"black\", \"parts\": 1\x7d,\x7b\"name\": \"milk\", \"color\": \"white\", \"parts\": 3\x7d]"

/-- The seeded blob of the second dummy drink in `db_drop_and_create_all`. -/
def seedRecipe2 : String :=
  "[\x7b\"name\": \"coffee2\", \"color\": \"black2\", \"parts\": 2\x7d,\x7b\"name\": \"milk2\", \"color\": \"white2\", \"parts\": 4\x7d]"

/-- `db_drop_and_create_all` from models.py: a fresh database holding the two
dummy drinks. -/
def db_drop_and_create_all : Catalog :=
  Catalog.mk
    [DrinkRow.mk 1 (Json.str "White Coffee") seedRecipe1,
     DrinkRow.mk 2 (Json.str "White Coffee2") seedRecipe2] 3

/-- An ingredient record of the data model: `name`, `color`, `parts`. -/
structure Ingredient where
  name : String
  color : String
  parts : Int
deriving DecidableEq

/-- The JSON form of one ingredient record. -/
def Ingredient.toJson (i : Ingredient) : Json :=
  Json.obj [("name", Json.str i.name), ("color", Json.str i.color),
    ("parts", Json.num i.parts)]

/-- The JSON form of an ingredient sequence. -/
def ingredientsJson (r : List Ingredient) : Json := Json.arr (r.map Ingredient.toJson)

/-- Read a JSON value back as an ingredient record: an object carrying a
string `name`, a string `color` and a numeric `parts`. -/
def ingredientOfJson : Json → Option Ingredient
  | Json.obj kvs =>
    match objGet kvs "name", objGet kvs "color", objGet kvs "parts" with
    | some (Json.str n), some (Json.str c), some (Json.num p) =>
      some (Ingredient.mk n c p)
    | _, _, _ => none
  | _ => none

/-- Read a JSON value back as an ingredient sequence. -/
def ingredientsOfJson : Json → Option (List Ingredient)
  | Json.arr items => items.mapM ingredientOfJson
  | _ => none

/-- The spec's recipe invariant for one stored blob: it deserializes to a
sequence of ingredient records. -/
def recipeWf (blob : String) : Bool :=
  ((json_loads blob).bind ingredientsOfJson).isSome

/-- The data-model invariant over a whole catalog state. -/
def CatalogInv (st : Catalog) : Prop := ∀ row ∈ st.rows, recipeWf row.recipe = true

/-- Title uniqueness across the stored rows. -/
def TitleUnique (st : Catalog) : Prop :=
  st.rows.Pairwise (fun a b => a.title ≠ b.title)

/-- Identifier uniqueness across the stored rows. -/
def IdUnique (st : Catalog) : Prop :=
  st.rows.Pairwise (fun a b => a.id ≠ b.id)

/-! ### Helper lemmas about the store -/

theorem filter_pairwise_singleton {α : Type} (p : α → Bool) :
    ∀ l : List α, l.Pairwise (fun a b => p a = true → p b = true → False) →
      ∀ d ∈ l, p d = true → l.filter p = [d]
  | [], _, d, hd, _ => absurd hd (List.not_mem_nil d)
  | a :: l, hpw, d, hd, hpd => by
    rw [List.pairwise_cons] at hpw
    rcases List.mem_cons.mp hd with rfl | hdl
    · rw [List.filter_cons_of_pos hpd]
      have : l.filter p = [] := by
        rw [List.filter_eq_nil]
        intro x hx hpx
        exact hpw.1 x hx hpd hpx
      rw [this]
    · have hpa : p a = false := by
        by_contra hne
        rw [Bool.not_eq_false] at hne
        exact hpw.1 d hdl hne hpd
      rw [List.filter_cons_of_neg (by simp [hpa])]
      exact filter_pairwise_singleton p l hpw.2 d hdl hpd

theorem filter_title_singleton (st : Catalog) (t : Json) (d : DrinkRow)
    (huniq : TitleUnique st) (hd : d ∈ st.rows) (ht : d.title = t) :
    st.rows.filter (fun row => decide (row.title = t)) = [d] := by
  refine filter_pairwise_singleton _ st.rows ?_ d hd (by simp [ht])
  refine huniq.imp ?_
  intro a b hab ha hb
  rw [decide_eq_true_eq] at ha hb
  exact hab (ha.trans hb.symm)

theorem filter_id_singleton (st : Catalog) (i : Nat) (d : DrinkRow)
    (huniq : IdUnique st) (hd : d ∈ st.rows) (hi : d.id = i) :
    st.rows.filter (fun row => decide (row.id = i)) = [d] := by
  refine filter_pairwise_singleton _ st.rows ?_ d hd (by simp [hi])
  refine huniq.imp ?_
  intro a b hab ha hb
  rw [decide_eq_true_eq] at ha hb
  exact hab (ha.trans hb.symm)

theorem mapM_option_some {α β : Type} (f : α → Option β) :
    ∀ l : List α, (∀ x ∈ l, (f x).isSome = true) →
      ∃ ys, l.mapM f = some ys ∧ ys.length = l.length
  | [], _ => ⟨[], rfl, rfl⟩
  | a :: l, h => by
    obtain ⟨b, hb⟩ := Option.isSome_iff_exists.mp (h a (by simp))
    obtain ⟨ys, hys, hlen⟩ := mapM_option_some f l (fun x hx => h x (by simp [hx]))
    refine ⟨b :: ys, ?_, ?_⟩
    · rw [List.mapM_cons, hb, hys]
      rfl
    · simp [hlen]

theorem mapM_option_ne_nil {α β : Type} (f : α → Option β) (a : α) (l : List α)
    (ys : List β) (h : (a :: l).mapM f = some ys) : ys ≠ [] := by
  rw [List.mapM_cons] at h
  cases hfa : f a with
  | none => rw [hfa] at h; simp at h
  | some b =>
    rw [hfa] at h
    cases hl : l.mapM f with
    | none => rw [hl] at h; simp at h
    | some zs =>
      rw [hl] at h
      simp only [Option.bind_some, Option.pure_def, Option.bind_eq_bind,
        Option.some_bind, Option.some.injEq] at h
      rw [← h]
      simp

/-- A well-formed blob makes the long projection defined. -/
theorem long_isSome_of_wf (d : DrinkRow) (h : recipeWf d.recipe = true) :
    ∃ j, json_loads d.recipe = some j ∧ Drink.long d = some (LongDrink.mk d.id d.title j) := by
  rw [recipeWf] at h
  cases hl : json_loads d.recipe with
  | none => rw [hl] at h; simp at h
  | some j => exact ⟨j, rfl, by rw [Drink.long, hl]; rfl⟩

theorem shortIngredient_isSome_of (r : Json) (h : (ingredientOfJson r).isSome = true) :
    (shortIngredient r).isSome = true := by
  cases r with
  | obj kvs =>
    rw [ingredientOfJson] at h
    rcases hn : objGet kvs "name" with _ | jn <;> rw [hn] at h
    · simp at h
    · rcases hc : objGet kvs "color" with _ | jc <;> rw [hc] at h
      · cases jn <;> simp at h
      · rcases hp : objGet kvs "parts" with _ | jp <;> rw [hp] at h
        · cases jn <;> cases jc <;> simp at h
        · rw [shortIngredient, hc, hp]
          simp
  | null => simp [ingredientOfJson] at h
  | bool b => simp [ingredientOfJson] at h
  | num i => simp [ingredientOfJson] at h
  | str s => simp [ingredientOfJson] at h
  | arr es => simp [ingredientOfJson] at h

instance (st : Catalog) : Decidable (CatalogInv st) :=
  List.decidableBAll _ st.rows

instance (st : Catalog) : Decidable (TitleUnique st) := by
  unfold TitleUnique
  infer_instance

instance (st : Catalog) : Decidable (IdUnique st) := by
  unfold IdUnique
  infer_instance

theorem mapM_option_isSome {α β : Type} (f : α → Option β) :
    ∀ (l : List α) (ys : List β), l.mapM f = some ys → ∀ x ∈ l, (f x).isSome = true
  | [], _, _, x, hx => absurd hx (List.not_mem_nil x)
  | a :: l, ys, h, x, hx => by
    rw [List.mapM_cons] at h
    cases hfa : f a with
    | none => rw [hfa] at h; simp at h
    | some b =>
      rw [hfa] at h
      cases hl : l.mapM f with
      | none => rw [hl] at h; simp at h
      | some zs =>
        rcases List.mem_cons.mp hx with rfl | hxl
        · simp [hfa]
        · exact mapM_option_isSome f l zs hl x hxl

/-- A well-formed blob makes the short projection defined. -/
theorem short_isSome_of_wf (d : DrinkRow) (h : recipeWf d.recipe = true) :
    ∃ rs, Drink.short d = some (ShortDrink.mk d.id d.title rs) := by
  rw [recipeWf] at h
  cases hl : json_loads d.recipe with
  | none => rw [hl] at h; simp at h
  | some j =>
    rw [hl] at h
    simp only [Option.some_bind] at h
    cases j with
    | arr items =>
      rw [ingredientsOfJson] at h
      obtain ⟨ings, hings⟩ := Option.isSome_iff_exists.mp h
      obtain ⟨rs, hrs, -⟩ := mapM_option_some shortIngredient items
        (fun x hx => shortIngredient_isSome_of x (mapM_option_isSome _ items ings hings x hx))
      refine ⟨rs, ?_⟩
      rw [Drink.short, hl]
      simp only []
      rw [hrs]
      rfl
    | null => simp [ingredientsOfJson] at h
    | bool b => simp [ingredientsOfJson] at h
    | num i => simp [ingredientsOfJson] at h
    | str s => simp [ingredientsOfJson] at h
    | obj kvs => simp [ingredientsOfJson] at h

/-! ### Claim theorems -/

/-- C1: for every request to a protected endpoint, a failure of the Token
Extractor or of the Token Verifier (for any reason — raised `AuthError` or any
other exception) makes the Auth Guard answer the bare `abort(401)` with no
stage-specific detail, while a failure of the Permission Gate after both
stages succeed propagates with its original status code and structured
description. -/
theorem C1_guard_error_narrowing {β : Type} (permission : String) (env : AuthEnv)
    (f : Payload → β) :
    ((∀ tok, get_token_auth_header env.header ≠ AuthOutcome.ok tok) →
      requires_auth permission env f = GuardResult.plain401)
    ∧ (∀ tok, get_token_auth_header env.header = AuthOutcome.ok tok →
        (∀ p, verify_decode_jwt env tok ≠ AuthOutcome.ok p) →
        requires_auth permission env f = GuardResult.plain401)
    ∧ (∀ tok p code desc status,
        get_token_auth_header env.header = AuthOutcome.ok tok →
        verify_decode_jwt env tok = AuthOutcome.ok p →
        check_permissions permission p = AuthOutcome.authError code desc status →
        requires_auth permission env f = GuardResult.errorResponse code desc status) := by
  refine ⟨?_, ?_, ?_⟩
  · intro hfail
    cases hx : get_token_auth_header env.header with
    | ok tok => exact absurd hx (hfail tok)
    | authError c d s => simp [requires_auth, hx]
    | exn => simp [requires_auth, hx]
  · intro tok hok hvfail
    cases hv : verify_decode_jwt env tok with
    | ok p => exact absurd hv (hvfail p)
    | authError c d s => simp [requires_auth, hok, hv]
    | exn => simp [requires_auth, hok, hv]
  · intro tok p code desc status hok hv hcp
    simp [requires_auth, hok, hv, hcp]

theorem C1_guard_error_narrowing_witness :
    requires_auth "get:drinks-detail"
      (AuthEnv.mk none none (fun _ => TokenModel.mk none (fun _ => DecodeOutcome.exn)))
      (fun _ => true) = GuardResult.plain401
    ∧ requires_auth "get:drinks-detail"
      (AuthEnv.mk (some "Bearer tok") (some [JwksKey.mk "RSA" "k1" "sig" "nn" "ee"])
        (fun _ => TokenModel.mk (some (some "k1"))
          (fun _ => DecodeOutcome.ok (Payload.mk (some [])))))
      (fun _ => true)
      = GuardResult.errorResponse "unauthorized" "Permission not found." 401 := by
  constructor
  · refine (C1_guard_error_narrowing "get:drinks-detail" _ _).1 ?_
    intro tok h
    exact AuthOutcome.noConfusion h
  · exact (C1_guard_error_narrowing "get:drinks-detail" _ _).2.2 "tok"
      (Payload.mk (some [])) "unauthorized" "Permission not found." 401
      (by decide) (by decide) (by decide)

/-- C2 counterexample: on the whitespace-only header `" "` the Token Extractor
does not raise the specified auth error — `auth.split()` yields zero parts and
`parts[0]` raises an uncaught `IndexError` (modelled as `exn`), so the claim
that the extractor is total and always raises the auth error is false. -/
theorem C2_extractor_counterexample :
    get_token_auth_header (some " ") = AuthOutcome.exn
    ∧ ∀ code desc status,
        get_token_auth_header (some " ") ≠ AuthOutcome.authError code desc status := by
  have h1 : get_token_auth_header (some " ") = AuthOutcome.exn := rfl
  refine ⟨h1, ?_⟩
  intro code desc status h
  exact AuthOutcome.noConfusion (h1.symm.trans h)

/-- C2 (amended): the Token Extractor raises the specified 401 auth error when
the header is absent or empty, when the first word is not `bearer`
case-insensitively, or when it splits into one or more than two parts; but on
a non-empty header splitting into zero parts (whitespace only) it instead
raises an uncaught `IndexError`. -/
theorem C2_extractor_cases (a : String) (ha : a ≠ "") :
    (get_token_auth_header none
      = AuthOutcome.authError "authorization_header_missing"
          "Authorization header is expected." 401)
    ∧ (get_token_auth_header (some "")
      = AuthOutcome.authError "authorization_header_missing"
          "Authorization header is expected." 401)
    ∧ (pysplit a = [] → get_token_auth_header (some a) = AuthOutcome.exn)
    ∧ (∀ p0 ps, pysplit a = p0 :: ps → pyLower p0 ≠ "bearer" →
        get_token_auth_header (some a)
          = AuthOutcome.authError "invalid_header"
              "Authorization header must start with \"Bearer\"." 401)
    ∧ (∀ p0, pysplit a = [p0] → pyLower p0 = "bearer" →
        get_token_auth_header (some a)
          = AuthOutcome.authError "invalid_header" "Token not found." 401)
    ∧ (∀ p0 tok, pysplit a = [p0, tok] → pyLower p0 = "bearer" →
        get_token_auth_header (some a) = AuthOutcome.ok tok)
    ∧ (∀ p0 p1 p2 ps, pysplit a = p0 :: p1 :: p2 :: ps → pyLower p0 = "bearer" →
        get_token_auth_header (some a)
          = AuthOutcome.authError "invalid_header"
              "Authorization header must be bearer token." 401) := by
  refine ⟨rfl, rfl, ?_, ?_, ?_, ?_, ?_⟩
  · intro h
    simp [get_token_auth_header, ha, h]
  · intro p0 ps h htl
    simp [get_token_auth_header, ha, h, htl]
  · intro p0 h htl
    simp [get_token_auth_header, ha, h, htl]
  · intro p0 tok h htl
    simp [get_token_auth_header, ha, h, htl]
  · intro p0 p1 p2 ps h htl
    simp [get_token_auth_header, ha, h, htl]

theorem C2_extractor_cases_witness :
    get_token_auth_header (some "lowercase bearer first") ≠ AuthOutcome.exn
    ∧ get_token_auth_header (some "BeAReR abc") = AuthOutcome.ok "abc"
    ∧ get_token_auth_header (some "Basic abc")
        = AuthOutcome.authError "invalid_header"
            "Authorization header must start with \"Bearer\"." 401
    ∧ get_token_auth_header (some "Bearer")
        = AuthOutcome.authError "invalid_header" "Token not found." 401
    ∧ get_token_auth_header (some "Bearer a b")
        = AuthOutcome.authError "invalid_header"
            "Authorization header must be bearer token." 401 := by
  refine ⟨?_, ?_, ?_, ?_, ?_⟩
  · rw [(C2_extractor_cases "lowercase bearer first" (by decide)).2.2.2.1
      "lowercase" ["bearer", "first"] (by decide) (by decide)]
    intro h
    exact AuthOutcome.noConfusion h
  · exact (C2_extractor_cases "BeAReR abc" (by decide)).2.2.2.2.2.1
      "BeAReR" "abc" (by decide) (by decide)
  · exact (C2_extractor_cases "Basic abc" (by decide)).2.2.2.1
      "Basic" ["abc"] (by decide) (by decide)
  · exact (C2_extractor_cases "Bearer" (by decide)).2.2.2.2.1
      "Bearer" (by decide) (by decide)
  · exact (C2_extractor_cases "Bearer a b" (by decide)).2.2.2.2.2.2
      "Bearer" "a" "b" [] (by decide) (by decide)

/-- C3 counterexample: a token whose header `jwt.get_unverified_header` cannot
parse makes `verify_decode_jwt` raise the library exception unchanged — it is
a parse failure that produces no `AuthError` at all, in particular no 400. -/
theorem C3_verifier_counterexample :
    verify_decode_jwt
      (AuthEnv.mk (some "Bearer t") (some [])
        (fun _ => TokenModel.mk none (fun _ => DecodeOutcome.exn))) "t"
      = AuthOutcome.exn
    ∧ ∀ code desc status,
        verify_decode_jwt
          (AuthEnv.mk (some "Bearer t") (some [])
            (fun _ => TokenModel.mk none (fun _ => DecodeOutcome.exn))) "t"
          ≠ AuthOutcome.authError code desc status := by
  have h1 : verify_decode_jwt
      (AuthEnv.mk (some "Bearer t") (some [])
        (fun _ => TokenModel.mk none (fun _ => DecodeOutcome.exn))) "t"
      = AuthOutcome.exn := rfl
  refine ⟨h1, ?_⟩
  intro code desc status h
  exact AuthOutcome.noConfusion (h1.symm.trans h)

/-- C3 (amended): the Token Verifier answers 401 on a parsed header without a
key id, 400 when no fetched key matches the key id, 401 on expiry, 401 on any
other claim mismatch, 400 on any other failure of the decode step once a key
is matched, and returns the decoded claim set unchanged on success; a key-set
fetch failure or an unparseable token header propagates as a raw exception. -/
theorem C3_verifier_cases (env : AuthEnv) (token : String) :
    (env.jwks = none → verify_decode_jwt env token = AuthOutcome.exn)
    ∧ (∀ keys, env.jwks = some keys →
      (((env.jose token).header = none → verify_decode_jwt env token = AuthOutcome.exn)
      ∧ ((env.jose token).header = some none →
          verify_decode_jwt env token
            = AuthOutcome.authError "invalid_header" "Authorization malformed." 401)
      ∧ (∀ kid, (env.jose token).header = some (some kid) → lastMatch keys kid = none →
          verify_decode_jwt env token
            = AuthOutcome.authError "invalid_header"
                "Unable to find the appropriate key." 400)
      ∧ (∀ kid key, (env.jose token).header = some (some kid) →
          lastMatch keys kid = some key →
          (((env.jose token).decode key = DecodeOutcome.expiredSignature →
            verify_decode_jwt env token
              = AuthOutcome.authError "token_expired" "Token expired." 401)
          ∧ ((env.jose token).decode key = DecodeOutcome.claimsError →
            verify_decode_jwt env token
              = AuthOutcome.authError "invalid_claims"
                  "Incorrect claims. Please, check the audience and issuer." 401)
          ∧ ((env.jose token).decode key = DecodeOutcome.exn →
            verify_decode_jwt env token
              = AuthOutcome.authError "invalid_header"
                  "Unable to parse authentication token." 400)
          ∧ (∀ p, (env.jose token).decode key = DecodeOutcome.ok p →
            verify_decode_jwt env token = AuthOutcome.ok p))))) := by
  refine ⟨?_, ?_⟩
  · intro h
    simp [verify_decode_jwt, h]
  · intro keys hk
    refine ⟨?_, ?_, ?_, ?_⟩
    · intro h
      simp [verify_decode_jwt, hk, h]
    · intro h
      simp [verify_decode_jwt, hk, h]
    · intro kid hh hm
      simp [verify_decode_jwt, hk, hh, hm]
    · intro kid key hh hm
      refine ⟨?_, ?_, ?_, ?_⟩
      · intro hd
        simp [verify_decode_jwt, hk, hh, hm, hd]
      · intro hd
        simp [verify_decode_jwt, hk, hh, hm, hd]
      · intro hd
        simp [verify_decode_jwt, hk, hh, hm, hd]
      · intro p hd
        simp [verify_decode_jwt, hk, hh, hm, hd]

theorem C3_verifier_cases_witness :
    verify_decode_jwt
      (AuthEnv.mk (some "Bearer t") (some [JwksKey.mk "RSA" "k1" "sig" "nn" "ee"])
        (fun _ => TokenModel.mk (some (some "k1"))
          (fun _ => DecodeOutcome.expiredSignature))) "t"
      = AuthOutcome.authError "token_expired" "Token expired." 401
    ∧ verify_decode_jwt
      (AuthEnv.mk (some "Bearer t") (some [JwksKey.mk "RSA" "k1" "sig" "nn" "ee"])
        (fun _ => TokenModel.mk (some (some "k2"))
          (fun _ => DecodeOutcome.ok (Payload.mk (some ["post:drinks"]))))) "t"
      = AuthOutcome.authError "invalid_header" "Unable to find the appropriate key." 400
    ∧ verify_decode_jwt
      (AuthEnv.mk (some "Bearer t") (some [JwksKey.mk "RSA" "k1" "sig" "nn" "ee"])
        (fun _ => TokenModel.mk (some (some "k1"))
          (fun _ => DecodeOutcome.ok (Payload.mk (some ["post:drinks"]))))) "t"
      = AuthOutcome.ok (Payload.mk (some ["post:drinks"])) := by
  refine ⟨?_, ?_, ?_⟩
  · exact (((C3_verifier_cases _ "t").2 _ rfl).2.2.2 "k1"
      (JwksKey.mk "RSA" "k1" "sig" "nn" "ee") rfl (by decide)).1 rfl
  · exact ((C3_verifier_cases _ "t").2 _ rfl).2.2.1 "k2" rfl (by decide)
  · exact (((C3_verifier_cases _ "t").2 _ rfl).2.2.2 "k1"
      (JwksKey.mk "RSA" "k1" "sig" "nn" "ee") rfl (by decide)).2.2.2
      (Payload.mk (some ["post:drinks"])) rfl

/-- C4: the Permission Gate fails with 400 exactly when the claim set has no
permission list at all; a present-but-empty list instead yields the 401
"permission not found" failure, as does any list missing the required
permission; when the permission is present it returns `True`. -/
theorem C4_permission_gate (permission : String) (payload : Payload) :
    (payload.permissions = none →
      check_permissions permission payload
        = AuthOutcome.authError "invalid_claims" "Permissions not included in JWT." 400)
    ∧ (∀ perms, payload.permissions = some perms → permission ∉ perms →
      check_permissions permission payload
        = AuthOutcome.authError "unauthorized" "Permission not found." 401)
    ∧ (payload.permissions = some [] →
      check_permissions permission payload
        = AuthOutcome.authError "unauthorized" "Permission not found." 401)
    ∧ (∀ perms, payload.permissions = some perms → permission ∈ perms →
      check_permissions permission payload = AuthOutcome.ok true) := by
  refine ⟨?_, ?_, ?_, ?_⟩
  · intro h
    simp [check_permissions, h]
  · intro perms h hnot
    simp [check_permissions, h, hnot]
  · intro h
    simp [check_permissions, h]
  · intro perms h hmem
    simp [check_permissions, h, hmem]

theorem C4_permission_gate_witness :
    check_permissions "post:drinks" (Payload.mk none)
      = AuthOutcome.authError "invalid_claims" "Permissions not included in JWT." 400
    ∧ check_permissions "post:drinks" (Payload.mk (some []))
      = AuthOutcome.authError "unauthorized" "Permission not found." 401
    ∧ check_permissions "post:drinks" (Payload.mk (some ["get:drinks-detail", "post:drinks"]))
      = AuthOutcome.ok true := by
  refine ⟨?_, ?_, ?_⟩
  · exact (C4_permission_gate "post:drinks" _).1 rfl
  · exact (C4_permission_gate "post:drinks" _).2.2.1 rfl
  · exact (C4_permission_gate "post:drinks" _).2.2.2 _ rfl (by decide)

/-- C5 (code bug): starting from the freshly seeded database — which satisfies
the recipe invariant — a create whose recipe is the JSON number `5` passes
every check in `drinks_create`, stores the blob `"5"` and answers 200; the
stored blob does not deserialize to a sequence of ingredient records, the
invariant is broken, and the short projection of the new row is undefined
(models.py documents the required datatype but api.py never validates it). -/
theorem C5_create_breaks_recipe_invariant :
    CatalogInv db_drop_and_create_all
    ∧ drinks_create db_drop_and_create_all (some (Json.str "Soda")) (some (Json.num 5))
      = (Rsp.ok [LongDrink.mk 3 (Json.str "Soda") (Json.num 5)],
         Catalog.mk (db_drop_and_create_all.rows ++ [DrinkRow.mk 3 (Json.str "Soda") "5"]) 4)
    ∧ recipeWf "5" = false
    ∧ ¬ CatalogInv
        (drinks_create db_drop_and_create_all (some (Json.str "Soda")) (some (Json.num 5))).2
    ∧ Drink.short (DrinkRow.mk 3 (Json.str "Soda") "5") = none := by
  refine ⟨by decide, by decide, by decide, by decide, by decide⟩

/-- C6: when a drink with the submitted title already exists (titles unique,
as the store maintains), every create with that title answers 400 and leaves
the catalog unchanged — no second row is ever inserted. -/
theorem C6_create_duplicate_title (st : Catalog) (ts : String) (d : DrinkRow)
    (nr : Option Json) (huniq : TitleUnique st)
    (hd : d ∈ st.rows) (ht : d.title = Json.str ts) :
    ∃ msg, drinks_create st (some (Json.str ts)) nr = (Rsp.err 400 msg, st) := by
  cases nr with
  | none =>
    exact ⟨"Missing input field(s). (recipe is required.)", by simp [drinks_create]⟩
  | some r =>
    by_cases hts : (Json.str ts : Json) = Json.str ""
    · exact ⟨"The title must not be blank.", by simp [drinks_create, hts]⟩
    · by_cases hr : r = Json.str ""
      · exact ⟨"The recipe must not be blank.", by simp [drinks_create, hts, hr]⟩
      · have hfil := filter_title_singleton st (Json.str ts) d huniq hd ht
        exact ⟨"Cannot add '" ++ ts ++ "'. That drink already exists in the datbase.",
          by simp [drinks_create, dupTitleAbort, hts, hr, hfil]⟩

theorem C6_create_duplicate_title_witness :
    ∃ msg,
      drinks_create db_drop_and_create_all (some (Json.str "White Coffee"))
        (some (Json.num 1))
      = (Rsp.err 400 msg, db_drop_and_create_all) :=
  C6_create_duplicate_title db_drop_and_create_all "White Coffee"
    (DrinkRow.mk 1 (Json.str "White Coffee") seedRecipe1) (some (Json.num 1))
    (by decide) (by decide) rfl

/-- C7: whenever a create with an ingredient-sequence recipe succeeds, the
returned long projection carries exactly the submitted ingredient sequence
(deserialising the stored serialized blob is the identity on it), and the new
row stores its serialization. -/
theorem C7_create_recipe_roundtrip (st : Catalog) (t : Json) (r : List Ingredient)
    (views : List LongDrink) (st' : Catalog)
    (h : drinks_create st (some t) (some (ingredientsJson r)) = (Rsp.ok views, st')) :
    views = [LongDrink.mk st.nextId t (ingredientsJson r)]
    ∧ st' = Catalog.mk
        (st.rows ++ [DrinkRow.mk st.nextId t (json_dumps (ingredientsJson r))])
        (st.nextId + 1) := by
  have hrne : ingredientsJson r ≠ Json.str "" := by simp [ingredientsJson]
  rw [drinks_create] at h
  simp only [] at h
  by_cases ht : t = Json.str ""
  · rw [if_pos ht] at h
    exact Rsp.noConfusion (congrArg Prod.fst h)
  · rw [if_neg ht, if_neg hrne] at h
    cases hfil : st.rows.filter (fun row => decide (row.title = t)) with
    | nil =>
      rw [hfil] at h
      simp only [] at h
      have hlong : Drink.long (DrinkRow.mk st.nextId t (json_dumps (ingredientsJson r)))
          = some (LongDrink.mk st.nextId t (ingredientsJson r)) := by
        rw [Drink.long, json_loads_dumps]
        rfl
      rw [hlong] at h
      simp only [] at h
      rw [Prod.mk.injEq] at h
      obtain ⟨h1, h2⟩ := h
      cases h1
      exact ⟨rfl, h2.symm⟩
    | cons d0 tail =>
      rw [hfil] at h
      cases tail with
      | nil =>
        simp only [] at h
        cases t with
        | str ts => exact Rsp.noConfusion (congrArg Prod.fst h)
        | null => exact Rsp.noConfusion (congrArg Prod.fst h)
        | bool b => exact Rsp.noConfusion (congrArg Prod.fst h)
        | num i => exact Rsp.noConfusion (congrArg Prod.fst h)
        | arr es => exact Rsp.noConfusion (congrArg Prod.fst h)
        | obj ms => exact Rsp.noConfusion (congrArg Prod.fst h)
      | cons d1 tail1 =>
        simp only [] at h
        exact Rsp.noConfusion (congrArg Prod.fst h)

theorem C7_create_recipe_roundtrip_witness :
    [LongDrink.mk 3 (Json.str "Latte") (ingredientsJson [Ingredient.mk "coffee" "brown" 1])]
      = [LongDrink.mk 3 (Json.str "Latte") (ingredientsJson [Ingredient.mk "coffee" "brown" 1])]
    ∧ Catalog.mk
        (db_drop_and_create_all.rows
          ++ [DrinkRow.mk 3 (Json.str "Latte")
                (json_dumps (ingredientsJson [Ingredient.mk "coffee" "brown" 1]))]) 4
      = Catalog.mk
        (db_drop_and_create_all.rows
          ++ [DrinkRow.mk 3 (Json.str "Latte")
                (json_dumps (ingredientsJson [Ingredient.mk "coffee" "brown" 1]))]) 4 :=
  C7_create_recipe_roundtrip db_drop_and_create_all (Json.str "Latte")
    [Ingredient.mk "coffee" "brown" 1]
    [LongDrink.mk 3 (Json.str "Latte") (ingredientsJson [Ingredient.mk "coffee" "brown" 1])]
    (Catalog.mk
      (db_drop_and_create_all.rows
        ++ [DrinkRow.mk 3 (Json.str "Latte")
              (json_dumps (ingredientsJson [Ingredient.mk "coffee" "brown" 1]))]) 4)
    (by decide)

/-- C8: on a catalog state of the data model (stored recipes deserialize to
ingredient sequences), both list endpoints answer 404 when the table is empty
and 200 with every row projected (short for /drinks, long for /drinks-detail)
when it is not; an empty success list is never returned by either. -/
theorem C8_list_endpoints (st : Catalog) (hinv : CatalogInv st) :
    (st.rows = [] →
      drinks st = Rsp.err 404 "There are no drinks"
      ∧ drinks_detail st = Rsp.err 404 "There are no drinks")
    ∧ (st.rows ≠ [] →
      ∃ shorts longs,
        st.rows.mapM Drink.short = some shorts
        ∧ st.rows.mapM Drink.long = some longs
        ∧ drinks st = Rsp.ok shorts
        ∧ drinks_detail st = Rsp.ok longs
        ∧ shorts ≠ [] ∧ longs ≠ [])
    ∧ (∀ views, drinks st = Rsp.ok views → views ≠ [])
    ∧ (∀ views, drinks_detail st = Rsp.ok views → views ≠ []) := by
  refine ⟨?_, ?_, ?_, ?_⟩
  · intro h
    constructor <;> simp [drinks, drinks_detail, h]
  · intro hne
    obtain ⟨shorts, hs, -⟩ := mapM_option_some Drink.short st.rows (fun x hx => by
      obtain ⟨rs, hrs⟩ := short_isSome_of_wf x (hinv x hx)
      simp [hrs])
    obtain ⟨longs, hl, -⟩ := mapM_option_some Drink.long st.rows (fun x hx => by
      obtain ⟨j, -, hj⟩ := long_isSome_of_wf x (hinv x hx)
      simp [hj])
    have hlen : st.rows.length ≠ 0 := by
      simpa [List.length_eq_zero] using hne
    refine ⟨shorts, longs, hs, hl, ?_, ?_, ?_, ?_⟩
    · rw [drinks, if_neg hlen, hs]
    · rw [drinks_detail, if_neg hlen, hl]
    · cases hrows : st.rows with
      | nil => exact absurd hrows hne
      | cons a l => exact mapM_option_ne_nil Drink.short a l shorts (hrows ▸ hs)
    · cases hrows : st.rows with
      | nil => exact absurd hrows hne
      | cons a l => exact mapM_option_ne_nil Drink.long a l longs (hrows ▸ hl)
  · intro views hok
    cases hrows : st.rows with
    | nil => rw [drinks, hrows] at hok; simp at hok
    | cons a l =>
      rw [drinks, hrows] at hok
      simp only [List.length_cons] at hok
      rw [if_neg (by omega)] at hok
      cases hm : (a :: l).mapM Drink.short with
      | none => rw [hm] at hok; exact Rsp.noConfusion hok
      | some ys =>
        rw [hm] at hok
        simp only [Rsp.ok.injEq] at hok
        rw [← hok]
        exact mapM_option_ne_nil Drink.short a l ys hm
  · intro views hok
    cases hrows : st.rows with
    | nil => rw [drinks_detail, hrows] at hok; simp at hok
    | cons a l =>
      rw [drinks_detail, hrows] at hok
      simp only [List.length_cons] at hok
      rw [if_neg (by omega)] at hok
      cases hm : (a :: l).mapM Drink.long with
      | none => rw [hm] at hok; exact Rsp.noConfusion hok
      | some ys =>
        rw [hm] at hok
        simp only [Rsp.ok.injEq] at hok
        rw [← hok]
        exact mapM_option_ne_nil Drink.long a l ys hm

theorem C8_list_endpoints_witness :
    drinks (Catalog.mk [] 1) = Rsp.err 404 "There are no drinks"
    ∧ ∃ shorts, drinks db_drop_and_create_all = Rsp.ok shorts ∧ shorts ≠ [] := by
  constructor
  · exact ((C8_list_endpoints (Catalog.mk [] 1) (by decide)).1 rfl).1
  · obtain ⟨shorts, longs, -, -, hok, -, hne, -⟩ :=
      (C8_list_endpoints db_drop_and_create_all (by decide)).2.1 (by decide)
    exact ⟨shorts, hok, hne⟩

/-- C9 counterexample: in the seeded two-drink database, updating drink 1's
title to drink 2's title is not rejected by the update's own validation and
does not return a long projection: the UNIQUE title constraint fails at
commit, the transaction rolls back, and the operation answers 422 with the
state unchanged — refuting the unconditional claim that a title-only update
always returns the updated long projection. -/
theorem C9_patch_counterexample :
    drinks_patch db_drop_and_create_all 1 (some (Json.str "White Coffee2")) none
      = (Rsp.err 422 "Unexpected error updating the database.", db_drop_and_create_all) := by
  decide

/-- C9 (amended): provided the new title does not collide with a different
row's title (and, for the returned projection, the stored blob deserializes),
a title-only update keeps the stored recipe and the id and returns the long
projection with the new title and original recipe; a recipe-only update keeps
the title and the id. -/
theorem C9_patch_frame (st : Catalog) (i : Nat) (d : DrinkRow)
    (hidu : IdUnique st) (hd : d ∈ st.rows) (hid : d.id = i) :
    (∀ ts : String, ts ≠ "" →
      (∀ o ∈ st.rows, o.id ≠ i → o.title ≠ Json.str ts) →
      ∀ j, json_loads d.recipe = some j →
      drinks_patch st i (some (Json.str ts)) none
        = (Rsp.ok [LongDrink.mk d.id (Json.str ts) j],
           Catalog.mk (st.rows.map (fun r0 =>
             if r0.id = i then DrinkRow.mk d.id (Json.str ts) d.recipe else r0)) st.nextId))
    ∧ (∀ rj : Json, rj ≠ Json.str "" →
      (∀ o ∈ st.rows, o.id ≠ i → o.title ≠ d.title) →
      drinks_patch st i none (some rj)
        = (Rsp.ok [LongDrink.mk d.id d.title rj],
           Catalog.mk (st.rows.map (fun r0 =>
             if r0.id = i then DrinkRow.mk d.id d.title (json_dumps rj) else r0)) st.nextId)) := by
  have hfil := filter_id_singleton st i d hidu hd hid
  constructor
  · intro ts hts hnocol j hj
    have hblank : ¬(some (Json.str ts) = some (Json.str "") ∨
        (none : Option Json) = some (Json.str "")) := by
      simp [hts]
    have hcol : st.rows.filter
        (fun o => decide (o.id ≠ i ∧ o.title = Json.str ts)) = [] := by
      rw [List.filter_eq_nil_iff]
      intro o ho
      simp only [decide_eq_true_eq, not_and]
      intro hoid
      exact hnocol o ho hoid
    rw [drinks_patch, if_neg (by simp), if_neg hblank, hfil]
    simp only [Option.getD_some, Option.map_none', Option.getD_none]
    rw [if_neg (not_not_intro hcol)]
    have hlong : Drink.long (DrinkRow.mk d.id (Json.str ts) d.recipe)
        = some (LongDrink.mk d.id (Json.str ts) j) := by
      rw [Drink.long]
      simp only [hj]
      rfl
    rw [hlong]
  · intro rj hrj hnocol
    have hblank : ¬((none : Option Json) = some (Json.str "") ∨
        some rj = some (Json.str "")) := by
      simp [hrj]
    have hcol : st.rows.filter
        (fun o => decide (o.id ≠ i ∧ o.title = d.title)) = [] := by
      rw [List.filter_eq_nil_iff]
      intro o ho
      simp only [decide_eq_true_eq, not_and]
      intro hoid
      exact hnocol o ho hoid
    rw [drinks_patch, if_neg (by simp), if_neg hblank, hfil]
    simp only [Option.getD_none, Option.map_some', Option.getD_some]
    rw [if_neg (not_not_intro hcol)]
    have hlong : Drink.long (DrinkRow.mk d.id d.title (json_dumps rj))
        = some (LongDrink.mk d.id d.title rj) := by
      rw [Drink.long, json_loads_dumps]
      rfl
    rw [hlong]

theorem C9_patch_frame_witness :
    drinks_patch db_drop_and_create_all 1 (some (Json.str "Mocha")) none
      = (Rsp.ok [LongDrink.mk 1 (Json.str "Mocha")
           (Json.arr
             [Json.obj [("name", Json.str "coffee"), ("color", Json.str "black"),
                ("parts", Json.num 1)],
              Json.obj [("name", Json.str "milk"), ("color", Json.str "white"),
                ("parts", Json.num 3)]])],
         Catalog.mk
           [DrinkRow.mk 1 (Json.str "Mocha") seedRecipe1,
            DrinkRow.mk 2 (Json.str "White Coffee2") seedRecipe2] 3)
    ∧ drinks_patch db_drop_and_create_all 2 none (some (Json.num 7))
      = (Rsp.ok [LongDrink.mk 2 (Json.str "White Coffee2") (Json.num 7)],
         Catalog.mk
           [DrinkRow.mk 1 (Json.str "White Coffee") seedRecipe1,
            DrinkRow.mk 2 (Json.str "White Coffee2") (json_dumps (Json.num 7))] 3) := by
  constructor
  · have h := (C9_patch_frame db_drop_and_create_all 1
      (DrinkRow.mk 1 (Json.str "White Coffee") seedRecipe1)
      (by decide) (by decide) rfl).1 "Mocha" (by decide) (by decide)
      (Json.arr
        [Json.obj [("name", Json.str "coffee"), ("color", Json.str "black"),
           ("parts", Json.num 1)],
         Json.obj [("name", Json.str "milk"), ("color", Json.str "white"),
           ("parts", Json.num 3)]]) (by decide)
    rw [h]
    decide
  · have h := (C9_patch_frame db_drop_and_create_all 2
      (DrinkRow.mk 2 (Json.str "White Coffee2") seedRecipe2)
      (by decide) (by decide) rfl).2 (Json.num 7) (by decide) (by decide)
    rw [h]
    decide

/-- C10: updating an existing drink's title to a different existing drink's
title passes the update's own validation (which has no duplicate-title check)
and fails only at the persistence layer's UNIQUE title column: the commit
raises, api.py rolls back and answers 422 — not the 400 duplicate-title error
of the create operation — and the state is unchanged. -/
theorem C10_patch_duplicate_title_422 (st : Catalog) (i : Nat) (d o : DrinkRow)
    (ts : String) (nr : Option Json)
    (hidu : IdUnique st) (hd : d ∈ st.rows) (hid : d.id = i)
    (ho : o ∈ st.rows) (hoid : o.id ≠ i) (hot : o.title = Json.str ts)
    (hts : ts ≠ "") (hnr : nr ≠ some (Json.str "")) :
    drinks_patch st i (some (Json.str ts)) nr
      = (Rsp.err 422 "Unexpected error updating the database.", st) := by
  have hfil := filter_id_singleton st i d hidu hd hid
  have hblank : ¬(some (Json.str ts) = some (Json.str "") ∨ nr = some (Json.str "")) := by
    simp [hts, hnr]
  have hcol : st.rows.filter
      (fun x => decide (x.id ≠ i ∧ x.title = Json.str ts)) ≠ [] := by
    have hmem : o ∈ st.rows.filter
        (fun x => decide (x.id ≠ i ∧ x.title = Json.str ts)) :=
      List.mem_filter.mpr ⟨ho, by simp [hoid, hot]⟩
    exact List.ne_nil_of_mem hmem
  rw [drinks_patch, if_neg (by simp), if_neg hblank, hfil]
  simp only [Option.getD_some]
  rw [if_pos hcol]

theorem C10_patch_duplicate_title_422_witness :
    drinks_patch db_drop_and_create_all 1 (some (Json.str "White Coffee2"))
      (some (Json.num 9))
      = (Rsp.err 422 "Unexpected error updating the database.",
         db_drop_and_create_all) :=
  C10_patch_duplicate_title_422 db_drop_and_create_all 1
    (DrinkRow.mk 1 (Json.str "White Coffee") seedRecipe1)
    (DrinkRow.mk 2 (Json.str "White Coffee2") seedRecipe2)
    "White Coffee2" (some (Json.num 9))
    (by decide) (by decide) rfl (by decide) (by decide) rfl (by decide) (by decide)
